import Mathlib

set_option autoImplicit false

/-!
Verification of the missing-value resolver of the house-price-prediction
repository (`src/handle_missing_values.py` and
`steps/handle_missing_values_step.py`).

A pandas `DataFrame` is modelled as an ordered list of named columns; each
column carries a dtype flag (`numeric`) and a list of cells aligned by row
position (the frames in this project come from `read_csv` and therefore use
the default positional `RangeIndex`).  A cell is `Option Value`, where `none`
is the absent (`NaN`) marker.  Fallible pandas calls (`fillna(None)`, a bad
`axis`) are modelled with `Except`.
-/

inductive Value where
  | num (q : ℚ)
  | str (s : String)
deriving DecidableEq

abbrev Cell := Option Value

structure Column where
  name : String
  numeric : Bool
  cells : List Cell
deriving DecidableEq

abbrev DataFrame := List Column

/-- Number of rows of a frame (length of its columns; frames are rectangular). -/
def nRows : DataFrame → Nat
  | [] => 0
  | c :: _ => c.cells.length

/-- The cells of row `i`, one per column, in column order. -/
def rowCells (df : DataFrame) (i : Nat) : List Cell :=
  df.map (fun c => c.cells.getD i none)

/-- Count of non-absent cells in row `i` (what `dropna`'s `thresh` counts for `axis=0`). -/
def rowNonAbsent (df : DataFrame) (i : Nat) : Nat :=
  ((rowCells df i).filter Option.isSome).length

/-- Count of non-absent cells of a column (what `thresh` counts for `axis=1`). -/
def Column.nonAbsentCount (c : Column) : Nat :=
  (c.cells.filter Option.isSome).length

/-- Keep-criterion of `dropna`: with `thresh` unset a row/column survives iff it has
no absent cell (`how='any'`), with `thresh=k` iff it has at least `k`
non-absent cells.  `total` is the number of cells of the row/column. -/
def keepCount : Option Nat → Nat → Nat → Bool
  | none, total, cnt => decide (cnt = total)
  | some k, _, cnt => decide (k ≤ cnt)

/-- Model of `df.dropna(axis=0, thresh=thresh)`. -/
def dropRows (thresh : Option Nat) (df : DataFrame) : DataFrame :=
  let keep := (List.range (nRows df)).filter
    (fun i => keepCount thresh df.length (rowNonAbsent df i))
  df.map (fun c => { c with cells := keep.map (fun i => c.cells.getD i none) })

/-- Model of `df.dropna(axis=1, thresh=thresh)`. -/
def dropCols (thresh : Option Nat) (df : DataFrame) : DataFrame :=
  df.filter (fun c => keepCount thresh c.cells.length c.nonAbsentCount)

/-- Constructor `DropMissingValuesStrategy.__init__` stores `axis` and `thresh` as given. -/
structure DropMissingValuesStrategy where
  axis : Nat
  thresh : Option Nat

/-- Method `DropMissingValuesStrategy.handle`: `df.dropna(axis=self.axis, thresh=self.thresh)`.
An axis other than 0/1 makes pandas raise `ValueError`. -/
def DropMissingValuesStrategy.handle (s : DropMissingValuesStrategy) (df : DataFrame) :
    Except String DataFrame :=
  if s.axis = 0 then Except.ok (dropRows s.thresh df)
  else if s.axis = 1 then Except.ok (dropCols s.thresh df)
  else Except.error "No axis named for object type DataFrame"

/-- The numeric values of a column's non-absent cells, in row order
(what `mean` / `median` / `mode` are computed from; `NaN` is skipped). -/
def numVals (c : Column) : List ℚ :=
  c.cells.filterMap (fun cell =>
    match cell with
    | some (Value.num q) => some q
    | _ => none)

/-- Column mean as computed by pandas `DataFrame.mean()`: arithmetic mean of
the non-absent values; `NaN` (here `none`) when there are none. -/
def colMean (c : Column) : Option ℚ :=
  let vals := numVals c
  if vals.length = 0 then none else some (vals.sum / (vals.length : ℚ))

/-- Insert into an ascending-sorted list of rationals. -/
def insertAsc (q : ℚ) : List ℚ → List ℚ
  | [] => [q]
  | x :: xs => if q ≤ x then q :: x :: xs else x :: insertAsc q xs

/-- Ascending insertion sort on rationals. -/
def sortAsc : List ℚ → List ℚ
  | [] => []
  | x :: xs => insertAsc x (sortAsc xs)

/-- Column median as computed by pandas `DataFrame.median()`: middle of the
sorted non-absent values, average of the two middles for even counts. -/
def colMedian (c : Column) : Option ℚ :=
  let vals := sortAsc (numVals c)
  let n := vals.length
  if n = 0 then none
  else if n % 2 = 1 then some (vals.getD (n / 2) 0)
  else some ((vals.getD (n / 2 - 1) 0 + vals.getD (n / 2) 0) / 2)

/-- Column modes as computed by pandas `Series.mode()`: the non-absent values
of maximal multiplicity, in ascending order (empty when the column has no
non-absent value). -/
def colModes (c : Column) : List ℚ :=
  let vals := numVals c
  let distinct := vals.dedup
  let maxCnt := (distinct.map (fun v => vals.count v)).foldr max 0
  sortAsc (distinct.filter (fun v => vals.count v == maxCnt))

/-- Fill of one cell by `fillna` with a per-column scalar (`NaN` scalar leaves the cell absent). -/
def fillCellWith (v : Option ℚ) (cell : Cell) : Cell :=
  match cell with
  | none => v.map Value.num
  | some x => some x

/-- Model of `df[numeric].fillna(df[numeric].mean())`: each numeric column's absent
cells get that column's mean; other columns untouched. -/
def meanFill (df : DataFrame) : DataFrame :=
  df.map (fun c =>
    if c.numeric then { c with cells := c.cells.map (fillCellWith (colMean c)) } else c)

/-- Model of `df[numeric].fillna(df[numeric].median())`. -/
def medianFill (df : DataFrame) : DataFrame :=
  df.map (fun c =>
    if c.numeric then { c with cells := c.cells.map (fillCellWith (colMedian c)) } else c)

/-- Row-aligned fill of a column from the mode frame: the absent cell at row
`i` receives row `i` of the column's `mode()` result when that row exists
(`fillna` with a DataFrame aligns on the index), otherwise stays absent. -/
def fillFromModes (modes : List ℚ) : Nat → List Cell → List Cell
  | _, [] => []
  | i, cell :: rest =>
    (match cell with
     | none => Option.map Value.num modes[i]?
     | some x => some x) :: fillFromModes modes (i + 1) rest

/-- Model of `df[numeric].fillna(df[numeric].mode())`: `mode()` returns a frame whose
column `c` holds the sorted modes of `c` (padded with `NaN`), indexed from 0;
`fillna` aligns it with `df` by row index. -/
def modeFill (df : DataFrame) : DataFrame :=
  df.map (fun c =>
    if c.numeric then { c with cells := fillFromModes (colModes c) 0 c.cells } else c)

/-- Fill of one cell by `fillna` with a scalar. -/
def constFillCell (v : Value) (cell : Cell) : Cell :=
  match cell with
  | none => some v
  | some x => some x

/-- Model of `df.fillna(v)` for a scalar `v`: every absent cell of every column becomes `v`. -/
def constFill (v : Value) (df : DataFrame) : DataFrame :=
  df.map (fun c => { c with cells := c.cells.map (constFillCell v) })

/-- The set `FillMissingValuesStrategy.ALLOWED_METHODS`. -/
def ALLOWED_METHODS : List String := ["mean", "median", "mode", "constant"]

structure FillMissingValuesStrategy where
  method : String
  fill_value : Option Value

/-- Constructor `FillMissingValuesStrategy.__init__`: stores `method` and `fill_value`
unconditionally; the returned flag records whether the invalid-method warning
was logged (`method` not in `ALLOWED_METHODS`). -/
def FillMissingValuesStrategy.init (method : String) (fill_value : Option Value) :
    FillMissingValuesStrategy × Bool :=
  ({ method := method, fill_value := fill_value }, !(ALLOWED_METHODS.contains method))

/-- Method `FillMissingValuesStrategy.handle`: copies the frame, then branches on the
stored method; an unrecognised method falls through every branch and the copy
is returned unchanged.  `constant` with the default `fill_value=None` is
`df.fillna(None)`, which raises `ValueError` in pandas. -/
def FillMissingValuesStrategy.handle (s : FillMissingValuesStrategy) (df : DataFrame) :
    Except String DataFrame :=
  if s.method = "mean" then Except.ok (meanFill df)
  else if s.method = "median" then Except.ok (medianFill df)
  else if s.method = "mode" then Except.ok (modeFill df)
  else if s.method = "constant" then
    match s.fill_value with
    | none => Except.error "Must specify a fill value or method"
    | some v => Except.ok (constFill v df)
  else Except.ok df

/-- Either concrete strategy, as consumed by `MissingValueHandler`. -/
inductive AnyStrategy where
  | drop (s : DropMissingValuesStrategy)
  | fill (s : FillMissingValuesStrategy)

def AnyStrategy.handle : AnyStrategy → DataFrame → Except String DataFrame
  | .drop s, df => s.handle df
  | .fill s, df => s.handle df

/-- Class `MissingValueHandler`: context object holding the configured strategy. -/
structure MissingValueHandler where
  strategy : AnyStrategy

/-- Method `MissingValueHandler.handle_missing_values`: delegates to the strategy. -/
def MissingValueHandler.handle_missing_values (h : MissingValueHandler) (df : DataFrame) :
    Except String DataFrame :=
  h.strategy.handle df

/-- Step `handle_missing_values_step(data, strategy)`: picks the strategy object
from the name (fill strategies get the default `fill_value=None`) and runs it;
an unknown name raises `ValueError`. -/
def handle_missing_values_step (data : DataFrame) (strategy : String) :
    Except String DataFrame :=
  if strategy = "drop" then
    (MissingValueHandler.mk (AnyStrategy.drop ⟨0, none⟩)).handle_missing_values data
  else if strategy ∈ ["mean", "median", "mode", "constant"] then
    (MissingValueHandler.mk
      (AnyStrategy.fill (FillMissingValuesStrategy.init strategy none).1)).handle_missing_values data
  else
    Except.error ("Unsupported missing value handling strategy: " ++ strategy)

/-!
Heap model for the mutation claim: Python dataframes are heap objects; an
address is an index into a list of frames.  `df.copy()` and `dropna` allocate,
`df_cleaned[cols] = ...` writes in place through the `df_cleaned` reference.
-/

abbrev Heap := List DataFrame

def Heap.read (h : Heap) (a : Nat) : DataFrame := h.getD a []

def Heap.write (h : Heap) (a : Nat) (df : DataFrame) : Heap := h.set a df

def Heap.alloc (h : Heap) (df : DataFrame) : Heap := h ++ [df]

/-- Method `FillMissingValuesStrategy.handle` at the object level: `df_cleaned = df.copy()`
allocates a fresh frame, each branch assigns into `df_cleaned` in place, and the
address of `df_cleaned` is returned. -/
def FillMissingValuesStrategy.handleProg (s : FillMissingValuesStrategy) (h : Heap)
    (a : Nat) : Except String Nat × Heap :=
  let h1 := h.alloc (h.read a)
  let b := h.length
  if s.method = "mean" then (Except.ok b, h1.write b (meanFill (h1.read b)))
  else if s.method = "median" then (Except.ok b, h1.write b (medianFill (h1.read b)))
  else if s.method = "mode" then (Except.ok b, h1.write b (modeFill (h1.read b)))
  else if s.method = "constant" then
    match s.fill_value with
    | none => (Except.error "Must specify a fill value or method", h1)
    | some v => (Except.ok b, h1.write b (constFill v (h1.read b)))
  else (Except.ok b, h1)

/-- Method `DropMissingValuesStrategy.handle` at the object level: `df.dropna(...)`
returns a freshly allocated frame and never writes through `df`. -/
def DropMissingValuesStrategy.handleProg (s : DropMissingValuesStrategy) (h : Heap)
    (a : Nat) : Except String Nat × Heap :=
  if s.axis = 0 then (Except.ok h.length, h.alloc (dropRows s.thresh (h.read a)))
  else if s.axis = 1 then (Except.ok h.length, h.alloc (dropCols s.thresh (h.read a)))
  else (Except.error "No axis named for object type DataFrame", h)

def AnyStrategy.handleProg : AnyStrategy → Heap → Nat → Except String Nat × Heap
  | .drop s, h, a => s.handleProg h a
  | .fill s, h, a => s.handleProg h a

/-- The rows of a frame, as lists of cells in column order (transposed view). -/
def rowsOf (df : DataFrame) : List (List Cell) :=
  (List.range (nRows df)).map (rowCells df)

/-- The worked scenario of the spec: 3 rows x 2 numeric columns
`[[1, absent], [2, 4], [absent, 6]]`. -/
def scenarioDf : DataFrame :=
  [⟨"A", true, [some (Value.num 1), some (Value.num 2), none]⟩,
   ⟨"B", true, [none, some (Value.num 4), some (Value.num 6)]⟩]

-- scratch theorems

/-- Claim C2: with method `constant` and a supplied scalar `v`, `handle` succeeds and
replaces every absent cell of every column by `v`, leaving present cells,
column names, dtypes, order and shape unchanged. -/
theorem fill_constant_spec (s : FillMissingValuesStrategy) (v : Value)
    (hm : s.method = "constant") (hv : s.fill_value = some v) (df : DataFrame) :
    ∃ out, s.handle df = Except.ok out ∧ out.length = df.length ∧
      ∀ j (hj : j < df.length) (hj' : j < out.length),
        out[j].name = df[j].name ∧ out[j].numeric = df[j].numeric ∧
        out[j].cells.length = df[j].cells.length ∧
        ∀ i (hi : i < df[j].cells.length) (hi' : i < out[j].cells.length),
          (df[j].cells[i] = none → out[j].cells[i] = some v) ∧
          ∀ w, df[j].cells[i] = some w → out[j].cells[i] = some w := by
  refine ⟨constFill v df, ?_, by simp [constFill], ?_⟩
  · simp [FillMissingValuesStrategy.handle, hm, hv]
  · intro j hj hj'
    refine ⟨by simp [constFill], by simp [constFill], by simp [constFill], ?_⟩
    intro i hi hi'
    have hgc : (constFill v df)[j].cells = df[j].cells.map (constFillCell v) := by
      simp [constFill]
    have hcc : (constFill v df)[j].cells[i] = constFillCell v (df[j].cells[i]) := by
      have hi2 : i < (df[j].cells.map (constFillCell v)).length := by
        simpa using hi
      calc (constFill v df)[j].cells[i]
          = (df[j].cells.map (constFillCell v))[i] := by congr 1
        _ = constFillCell v (df[j].cells[i]) := by simp
    rw [hcc]
    cases hcell : df[j].cells[i] with
    | none => exact ⟨fun _ => rfl, fun w hw => by simp [hcell] at hw⟩
    | some w => exact ⟨fun hw => by simp [hcell] at hw,
        fun w' hw' => by rw [← (Option.some.inj hw')]; rfl⟩

/-- Claim C8: the constant fill with a supplied scalar is idempotent. -/
theorem fill_constant_idempotent (s : FillMissingValuesStrategy) (v : Value)
    (hm : s.method = "constant") (hv : s.fill_value = some v) (df : DataFrame) :
    (s.handle df).bind s.handle = s.handle df := by
  have hidem : constFill v (constFill v df) = constFill v df := by
    simp only [constFill, List.map_map]
    refine List.map_congr_left (fun c _ => ?_)
    simp only [Function.comp_apply, List.map_map]
    congr 1
    refine List.map_congr_left (fun cell _ => ?_)
    cases cell <;> rfl
  have hconst : ∀ d, s.handle d = Except.ok (constFill v d) := by
    intro d; simp [FillMissingValuesStrategy.handle, hm, hv]
  rw [hconst df]
  show s.handle (constFill v df) = Except.ok (constFill v df)
  rw [hconst (constFill v df), hidem]

/-- Claim C3: an invalid fill method is stored as given (no fallback to mean), the
warning flag is set, and `handle` neither raises nor transforms the frame. -/
theorem fill_invalid_method (m : String) (fv : Option Value) (df : DataFrame)
    (hm : m ∉ ALLOWED_METHODS) :
    (FillMissingValuesStrategy.init m fv).1.method = m ∧
    (FillMissingValuesStrategy.init m fv).2 = true ∧
    (FillMissingValuesStrategy.init m fv).1.handle df = Except.ok df := by
  have h1 : m ≠ "mean" := fun h => hm (h ▸ by simp [ALLOWED_METHODS])
  have h2 : m ≠ "median" := fun h => hm (h ▸ by simp [ALLOWED_METHODS])
  have h3 : m ≠ "mode" := fun h => hm (h ▸ by simp [ALLOWED_METHODS])
  have h4 : m ≠ "constant" := fun h => hm (h ▸ by simp [ALLOWED_METHODS])
  refine ⟨rfl, ?_, ?_⟩
  · simp [FillMissingValuesStrategy.init]
    simpa [ALLOWED_METHODS] using hm
  · simp [FillMissingValuesStrategy.init, FillMissingValuesStrategy.handle, h1, h2, h3, h4]

/-- Claim C10: the step's `constant` branch builds the fill strategy with the default
`fill_value=None` (no way to pass a constant), so it equals that strategy's
`handle`, which always raises pandas' `fillna` ValueError. -/
theorem step_constant_default (df : DataFrame) :
    handle_missing_values_step df "constant" =
      FillMissingValuesStrategy.handle ⟨"constant", none⟩ df ∧
    FillMissingValuesStrategy.handle ⟨"constant", none⟩ df =
      Except.error "Must specify a fill value or method" := ⟨rfl, rfl⟩

/-- Claim C7: the orchestration step rejects any strategy name outside
drop/mean/median/mode/constant with the unsupported-strategy error before
touching the data, and never raises that error for a name inside the set. -/
theorem step_unsupported_strategy (s : String) (D : DataFrame) :
    (s ∉ (["drop", "mean", "median", "mode", "constant"] : List String) →
      handle_missing_values_step D s =
        Except.error ("Unsupported missing value handling strategy: " ++ s)) ∧
    (s ∈ (["drop", "mean", "median", "mode", "constant"] : List String) →
      handle_missing_values_step D s ≠
        Except.error ("Unsupported missing value handling strategy: " ++ s)) := by
  constructor
  · intro hs
    have h1 : s ≠ "drop" := fun h => hs (by simp [h])
    have h2 : ¬ (s ∈ (["mean", "median", "mode", "constant"] : List String)) := by
      intro h; exact hs (by simp at h ⊢; tauto)
    simp [handle_missing_values_step, h1, h2]
  · intro hs h
    simp only [List.mem_cons, List.mem_singleton] at hs
    rcases hs with rfl | rfl | rfl | rfl | rfl | hs
    · simp [handle_missing_values_step, MissingValueHandler.handle_missing_values,
        AnyStrategy.handle, DropMissingValuesStrategy.handle] at h
    · simp [handle_missing_values_step, MissingValueHandler.handle_missing_values,
        AnyStrategy.handle, FillMissingValuesStrategy.handle,
        FillMissingValuesStrategy.init] at h
    · simp [handle_missing_values_step, MissingValueHandler.handle_missing_values,
        AnyStrategy.handle, FillMissingValuesStrategy.handle,
        FillMissingValuesStrategy.init] at h
    · simp [handle_missing_values_step, MissingValueHandler.handle_missing_values,
        AnyStrategy.handle, FillMissingValuesStrategy.handle,
        FillMissingValuesStrategy.init] at h
    · simp [handle_missing_values_step, MissingValueHandler.handle_missing_values,
        AnyStrategy.handle, FillMissingValuesStrategy.handle,
        FillMissingValuesStrategy.init] at h
    · simp at hs

lemma fillFromModes_length (m : List ℚ) : ∀ i l, (fillFromModes m i l).length = l.length
  | _, [] => rfl
  | i, _ :: rest => by simp [fillFromModes, fillFromModes_length m (i + 1) rest]

lemma fillFromModes_getElem (m : List ℚ) :
    ∀ (l : List Cell) (i k : Nat) (hk : k < l.length)
      (hk' : k < (fillFromModes m i l).length),
      (fillFromModes m i l)[k] =
        (match l[k] with
         | none => Option.map Value.num m[i + k]?
         | some x => some x)
  | [], _, k, hk, _ => absurd hk (by simp)
  | cell :: rest, i, 0, hk, hk' => by cases cell <;> simp [fillFromModes]
  | cell :: rest, i, k + 1, hk, hk' => by
    have hk2 : k < rest.length := by simpa using hk
    have hk2' : k < (fillFromModes m (i + 1) rest).length := by
      simpa [fillFromModes_length] using hk2
    have := fillFromModes_getElem m rest (i + 1) k hk2 hk2'
    simp only [fillFromModes, List.getElem_cons_succ]
    rw [this, show i + 1 + k = i + (k + 1) by omega]

/-- Claim C1: with method `mean`, `handle` succeeds; in every numeric column each
absent cell becomes that column's arithmetic mean of the non-absent input
values (staying absent only when the column has no such value), present cells
are unchanged, and non-numeric columns are returned identically. -/
theorem fill_mean_spec (s : FillMissingValuesStrategy) (hm : s.method = "mean")
    (df : DataFrame) :
    ∃ out, s.handle df = Except.ok out ∧ out.length = df.length ∧
      ∀ j (hj : j < df.length) (hj' : j < out.length),
        out[j].name = df[j].name ∧ out[j].numeric = df[j].numeric ∧
        (df[j].numeric = false → out[j] = df[j]) ∧
        (df[j].numeric = true →
          out[j].cells.length = df[j].cells.length ∧
          ∀ i (hi : i < df[j].cells.length) (hi' : i < out[j].cells.length),
            (df[j].cells[i] = none →
              out[j].cells[i] = Option.map Value.num (colMean df[j])) ∧
            ∀ w, df[j].cells[i] = some w → out[j].cells[i] = some w) := by
  refine ⟨meanFill df, ?_, by simp [meanFill], ?_⟩
  · simp [FillMissingValuesStrategy.handle, hm]
  · intro j hj hj'
    have hcol : (meanFill df)[j] =
        (if df[j].numeric then
          { df[j] with cells := df[j].cells.map (fillCellWith (colMean df[j])) }
         else df[j]) := by
      simp [meanFill]
    by_cases hn : df[j].numeric = true
    · rw [hcol, if_pos hn]
      refine ⟨rfl, rfl, ?_, ?_⟩
      · intro hf; simp [hf] at hn
      · intro _
        refine ⟨by simp, ?_⟩
        intro i hi hi'
        have hcc : ({ df[j] with
              cells := df[j].cells.map (fillCellWith (colMean df[j])) } : Column).cells[i] =
            fillCellWith (colMean df[j]) (df[j].cells[i]) := by
          simp
        rw [hcc]
        cases hcell : df[j].cells[i] with
        | none => exact ⟨fun _ => rfl, fun w hw => by simp [hcell] at hw⟩
        | some w => exact ⟨fun hw => by simp [hcell] at hw,
            fun w' hw' => by rw [← (Option.some.inj hw')]; rfl⟩
    · have hn' : df[j].numeric = false := by simpa using hn
      rw [hcol, if_neg hn]
      refine ⟨rfl, rfl, fun _ => rfl, ?_⟩
      intro ht; simp [ht] at hn'

/-- Claim C4 counterexample: a numeric column `[1, 1, NaN]` has the single mode 1,
yet `handle` with method `mode` leaves the absent cell at row 2 absent
(`fillna(df.mode())` aligns by row index), instead of filling it with 1. -/
theorem fill_mode_claim_cex :
    colModes ⟨"a", true, [some (Value.num 1), some (Value.num 1), none]⟩ = [1] ∧
    FillMissingValuesStrategy.handle ⟨"mode", none⟩
        [⟨"a", true, [some (Value.num 1), some (Value.num 1), none]⟩] =
      Except.ok [⟨"a", true, [some (Value.num 1), some (Value.num 1), none]⟩] ∧
    FillMissingValuesStrategy.handle ⟨"mode", none⟩
        [⟨"a", true, [some (Value.num 1), some (Value.num 1), none]⟩] ≠
      Except.ok [⟨"a", true,
        [some (Value.num 1), some (Value.num 1), some (Value.num 1)]⟩] := by
  have h1 : colModes ⟨"a", true, [some (Value.num 1), some (Value.num 1), none]⟩ = [1] := by
    norm_num [colModes, numVals, sortAsc, insertAsc, List.dedup, List.filterMap_cons]
  have h2 : FillMissingValuesStrategy.handle ⟨"mode", none⟩
      [⟨"a", true, [some (Value.num 1), some (Value.num 1), none]⟩] =
      Except.ok [⟨"a", true, [some (Value.num 1), some (Value.num 1), none]⟩] := by
    have hstep : FillMissingValuesStrategy.handle ⟨"mode", none⟩
        [⟨"a", true, [some (Value.num 1), some (Value.num 1), none]⟩] =
        Except.ok (modeFill [⟨"a", true, [some (Value.num 1), some (Value.num 1), none]⟩]) := by
      simp [FillMissingValuesStrategy.handle]
    rw [hstep]
    norm_num [modeFill, fillFromModes, h1]
  refine ⟨h1, h2, ?_⟩
  rw [h2]
  intro h
  simp at h

/-- Claim C4 amended: with method `mode`, `handle` succeeds; in a numeric column the
absent cell at row `i` is filled with the `i`-th smallest mode of the column
when the column has more than `i` modes and stays absent otherwise (row-index
alignment of `fillna` with the `mode()` frame); present cells and non-numeric
columns are unchanged. -/
theorem fill_mode_row_aligned (s : FillMissingValuesStrategy) (hm : s.method = "mode")
    (df : DataFrame) :
    ∃ out, s.handle df = Except.ok out ∧ out.length = df.length ∧
      ∀ j (hj : j < df.length) (hj' : j < out.length),
        out[j].name = df[j].name ∧ out[j].numeric = df[j].numeric ∧
        (df[j].numeric = false → out[j] = df[j]) ∧
        (df[j].numeric = true →
          out[j].cells.length = df[j].cells.length ∧
          ∀ i (hi : i < df[j].cells.length) (hi' : i < out[j].cells.length),
            (df[j].cells[i] = none →
              out[j].cells[i] = Option.map Value.num (colModes df[j])[i]?) ∧
            ∀ w, df[j].cells[i] = some w → out[j].cells[i] = some w) := by
  refine ⟨modeFill df, ?_, by simp [modeFill], ?_⟩
  · simp [FillMissingValuesStrategy.handle, hm]
  · intro j hj hj'
    have hcol : (modeFill df)[j] =
        (if df[j].numeric then
          { df[j] with cells := fillFromModes (colModes df[j]) 0 df[j].cells }
         else df[j]) := by
      simp [modeFill]
    by_cases hn : df[j].numeric = true
    · rw [hcol, if_pos hn]
      refine ⟨rfl, rfl, ?_, ?_⟩
      · intro hf; simp [hf] at hn
      · intro _
        refine ⟨by simp [fillFromModes_length], ?_⟩
        intro i hi hi'
        have hi2 : i < (fillFromModes (colModes df[j]) 0 df[j].cells).length := by
          simpa [fillFromModes_length] using hi
        have hcc : ({ df[j] with
              cells := fillFromModes (colModes df[j]) 0 df[j].cells } : Column).cells[i] =
            (match df[j].cells[i] with
             | none => Option.map Value.num (colModes df[j])[0 + i]?
             | some x => some x) := by
          exact fillFromModes_getElem (colModes df[j]) df[j].cells 0 i hi hi2
        rw [hcc]
        cases hcell : df[j].cells[i] with
        | none => exact ⟨fun _ => by simp, fun w hw => by simp [hcell] at hw⟩
        | some w => exact ⟨fun hw => by simp [hcell] at hw,
            fun w' hw' => by rw [← (Option.some.inj hw')]⟩
    · have hn' : df[j].numeric = false := by simpa using hn
      rw [hcol, if_neg hn]
      refine ⟨rfl, rfl, fun _ => rfl, ?_⟩
      intro ht; simp [ht] at hn'

/-- Claim C6: dropping columns with `thresh = k` keeps exactly the columns with at
least `k` non-absent cells, in order, cells untouched. -/
theorem drop_cols_thresh_spec (s : DropMissingValuesStrategy) (k : Nat)
    (hax : s.axis = 1) (hth : s.thresh = some k) (df : DataFrame) :
    s.handle df =
      Except.ok (df.filter (fun c => decide (k ≤ (c.cells.filter Option.isSome).length))) := by
  simp [DropMissingValuesStrategy.handle, hax, hth, dropCols, keepCount,
    Column.nonAbsentCount]

lemma length_filter_isSome_eq_iff_all (r : List Cell) :
    (r.filter Option.isSome).length = r.length ↔ r.all Option.isSome = true := by
  constructor
  · intro hlen
    have hself : r.filter Option.isSome = r :=
      (List.filter_sublist r).eq_of_length hlen
    rw [List.all_eq_true]
    exact fun a ha => List.filter_eq_self.mp hself a ha
  · intro hall
    have hself : r.filter Option.isSome = r :=
      List.filter_eq_self.mpr (List.all_eq_true.mp hall)
    rw [hself]

/-- Claim C5: dropping rows with `thresh` unset keeps exactly the complete rows (no
absent cell), in order, and preserves the columns' names, dtypes and order. -/
theorem drop_rows_complete_spec (s : DropMissingValuesStrategy)
    (hax : s.axis = 0) (hth : s.thresh = none) (df : DataFrame)
    (hwf : ∀ c ∈ df, c.cells.length = nRows df) :
    ∃ out, s.handle df = Except.ok out ∧
      out.map Column.name = df.map Column.name ∧
      out.map Column.numeric = df.map Column.numeric ∧
      rowsOf out = (rowsOf df).filter (fun r => r.all Option.isSome) := by
  refine ⟨dropRows none df, ?_, ?_, ?_, ?_⟩
  · simp [DropMissingValuesStrategy.handle, hax, hth]
  · simp only [dropRows, List.map_map]
    exact List.map_congr_left (fun c _ => rfl)
  · simp only [dropRows, List.map_map]
    exact List.map_congr_left (fun c _ => rfl)
  · -- notation for the retained row indices
    set keep := (List.range (nRows df)).filter
      (fun i => keepCount none df.length (rowNonAbsent df i)) with hkeep
    -- step 1: the rows of the result are the retained rows of the input
    have hstep1 : rowsOf (dropRows none df) = keep.map (rowCells df) := by
      cases df with
      | nil => rfl
      | cons c0 rest =>
        have hd : dropRows none (c0 :: rest) =
            (c0 :: rest).map
              (fun c => { c with cells := keep.map (fun i => c.cells.getD i none) }) := by
          simp only [dropRows]
        apply List.ext_getElem
        · rw [hd]
          simp [rowsOf, nRows]
        · intro j h1 h2
          have hj : j < keep.length := by simpa using h2
          have hrow : ∀ (d : DataFrame) (g : Column → Column),
              rowCells (d.map g) j = d.map (fun c => (g c).cells.getD j none) := by
            intro d g; simp [rowCells, List.map_map]
          have hcell : ∀ (c : Column),
              ((keep.map (fun i => c.cells.getD i none)).getD j none) =
                c.cells.getD keep[j] none := by
            intro c
            rw [List.getD_eq_getElem?_getD, List.getElem?_eq_getElem (by simpa using hj)]
            simp
          simp only [rowsOf, List.getElem_map, List.getElem_range]
          rw [hd, hrow]
          simp only [rowCells]
          exact List.map_congr_left (fun c _ => hcell c)
    -- step 2: filtering the transposed input commutes with transposition
    have hstep2 : (rowsOf df).filter (fun r => r.all Option.isSome) =
        ((List.range (nRows df)).filter
          (fun i => (rowCells df i).all Option.isSome)).map (rowCells df) := by
      rw [rowsOf, List.filter_map]
      rfl
    -- step 3: the two keep-criteria agree pointwise
    have hstep3 : keep = (List.range (nRows df)).filter
        (fun i => (rowCells df i).all Option.isSome) := by
      rw [hkeep]
      refine List.filter_congr ?_
      intro i _
      have hlen : (rowCells df i).length = df.length := by simp [rowCells]
      show decide (rowNonAbsent df i = df.length) = (rowCells df i).all Option.isSome
      rcases hall : (rowCells df i).all Option.isSome with _ | _
      · -- not all present: counts differ
      
        have : ¬ (rowNonAbsent df i = df.length) := by
          intro hcontra
          have : ((rowCells df i).filter Option.isSome).length = (rowCells df i).length := by
            rw [hlen]; exact hcontra
          have := (length_filter_isSome_eq_iff_all _).mp this
          rw [hall] at this
          cases this
        simpa using this
      · have : rowNonAbsent df i = df.length := by
          rw [rowNonAbsent, ← hlen]
          exact (length_filter_isSome_eq_iff_all _).mpr hall
        simpa using this
    rw [hstep1, hstep2, hstep3]

lemma Heap.read_alloc (h : Heap) (d : DataFrame) (a : Nat) (ha : a < h.length) :
    (h.alloc d).read a = h.read a := by
  simp only [Heap.read, Heap.alloc, List.getD_eq_getElem?_getD]
  rw [List.getElem?_append_left ha]

lemma Heap.read_write_ne (h : Heap) (b : Nat) (d : DataFrame) (a : Nat) (hba : b ≠ a) :
    (h.write b d).read a = h.read a := by
  simp only [Heap.read, Heap.write, List.getD_eq_getElem?_getD]
  rw [List.getElem?_set_ne hba]

/-- Claim C9: running any configured strategy on the dataframe at address `a` never
changes that dataframe: the result lives at a freshly allocated address
(`copy` / `dropna`), and the heap cell at `a` is untouched. -/
theorem handle_preserves_input (st : AnyStrategy) (h : Heap) (a : Nat)
    (ha : a < h.length) :
    (st.handleProg h a).2.read a = h.read a ∧
    ∀ b, (st.handleProg h a).1 = Except.ok b → b ≠ a := by
  have hne : h.length ≠ a := fun he => absurd (he ▸ ha) (Nat.lt_irrefl _)
  cases st with
  | drop s =>
    simp only [AnyStrategy.handleProg, DropMissingValuesStrategy.handleProg]
    split
    · exact ⟨Heap.read_alloc h _ a ha, fun b hb => by
        rw [← (Except.ok.inj hb)]; exact hne⟩
    · split
      · exact ⟨Heap.read_alloc h _ a ha, fun b hb => by
          rw [← (Except.ok.inj hb)]; exact hne⟩
      · exact ⟨rfl, fun b hb => by cases hb⟩
  | fill s =>
    simp only [AnyStrategy.handleProg, FillMissingValuesStrategy.handleProg]
    split
    · exact ⟨by rw [Heap.read_write_ne _ _ _ _ hne, Heap.read_alloc h _ a ha],
        fun b hb => by rw [← (Except.ok.inj hb)]; exact hne⟩
    · split
      · exact ⟨by rw [Heap.read_write_ne _ _ _ _ hne, Heap.read_alloc h _ a ha],
          fun b hb => by rw [← (Except.ok.inj hb)]; exact hne⟩
      · split
        · exact ⟨by rw [Heap.read_write_ne _ _ _ _ hne, Heap.read_alloc h _ a ha],
            fun b hb => by rw [← (Except.ok.inj hb)]; exact hne⟩
        · split
          · split
            · exact ⟨Heap.read_alloc h _ a ha, fun b hb => by cases hb⟩
            · exact ⟨by rw [Heap.read_write_ne _ _ _ _ hne, Heap.read_alloc h _ a ha],
                fun b hb => by rw [← (Except.ok.inj hb)]; exact hne⟩
          · exact ⟨Heap.read_alloc h _ a ha, fun b hb => by
              rw [← (Except.ok.inj hb)]; exact hne⟩

theorem fill_mean_spec_witness :
    (FillMissingValuesStrategy.mk "mean" none).method = "mean" ∧
    (∃ out, (FillMissingValuesStrategy.mk "mean" none).handle scenarioDf = Except.ok out ∧
      out.length = scenarioDf.length ∧
      ∀ j (hj : j < scenarioDf.length) (hj' : j < out.length),
        out[j].name = scenarioDf[j].name ∧ out[j].numeric = scenarioDf[j].numeric ∧
        (scenarioDf[j].numeric = false → out[j] = scenarioDf[j]) ∧
        (scenarioDf[j].numeric = true →
          out[j].cells.length = scenarioDf[j].cells.length ∧
          ∀ i (hi : i < scenarioDf[j].cells.length) (hi' : i < out[j].cells.length),
            (scenarioDf[j].cells[i] = none →
              out[j].cells[i] = Option.map Value.num (colMean scenarioDf[j])) ∧
            ∀ w, scenarioDf[j].cells[i] = some w → out[j].cells[i] = some w)) :=
  ⟨rfl, fill_mean_spec (FillMissingValuesStrategy.mk "mean" none) rfl scenarioDf⟩

theorem fill_constant_spec_witness :
    (FillMissingValuesStrategy.mk "constant" (some (Value.str "NA"))).method = "constant" ∧
    (FillMissingValuesStrategy.mk "constant" (some (Value.str "NA"))).fill_value =
      some (Value.str "NA") ∧
    (∃ out, (FillMissingValuesStrategy.mk "constant" (some (Value.str "NA"))).handle
        scenarioDf = Except.ok out ∧
      out.length = scenarioDf.length ∧
      ∀ j (hj : j < scenarioDf.length) (hj' : j < out.length),
        out[j].name = scenarioDf[j].name ∧ out[j].numeric = scenarioDf[j].numeric ∧
        out[j].cells.length = scenarioDf[j].cells.length ∧
        ∀ i (hi : i < scenarioDf[j].cells.length) (hi' : i < out[j].cells.length),
          (scenarioDf[j].cells[i] = none → out[j].cells[i] = some (Value.str "NA")) ∧
          ∀ w, scenarioDf[j].cells[i] = some w → out[j].cells[i] = some w) :=
  ⟨rfl, rfl,
    fill_constant_spec (FillMissingValuesStrategy.mk "constant" (some (Value.str "NA")))
      (Value.str "NA") rfl rfl scenarioDf⟩

theorem fill_invalid_method_witness :
    "invalid" ∉ ALLOWED_METHODS ∧
    ((FillMissingValuesStrategy.init "invalid" none).1.method = "invalid" ∧
     (FillMissingValuesStrategy.init "invalid" none).2 = true ∧
     (FillMissingValuesStrategy.init "invalid" none).1.handle scenarioDf =
       Except.ok scenarioDf) :=
  ⟨by decide, fill_invalid_method "invalid" none scenarioDf (by decide)⟩

theorem fill_mode_row_aligned_witness :
    (FillMissingValuesStrategy.mk "mode" none).method = "mode" ∧
    (∃ out, (FillMissingValuesStrategy.mk "mode" none).handle scenarioDf = Except.ok out ∧
      out.length = scenarioDf.length ∧
      ∀ j (hj : j < scenarioDf.length) (hj' : j < out.length),
        out[j].name = scenarioDf[j].name ∧ out[j].numeric = scenarioDf[j].numeric ∧
        (scenarioDf[j].numeric = false → out[j] = scenarioDf[j]) ∧
        (scenarioDf[j].numeric = true →
          out[j].cells.length = scenarioDf[j].cells.length ∧
          ∀ i (hi : i < scenarioDf[j].cells.length) (hi' : i < out[j].cells.length),
            (scenarioDf[j].cells[i] = none →
              out[j].cells[i] = Option.map Value.num (colModes scenarioDf[j])[i]?) ∧
            ∀ w, scenarioDf[j].cells[i] = some w → out[j].cells[i] = some w)) :=
  ⟨rfl, fill_mode_row_aligned (FillMissingValuesStrategy.mk "mode" none) rfl scenarioDf⟩

theorem drop_rows_complete_spec_witness :
    (DropMissingValuesStrategy.mk 0 none).axis = 0 ∧
    (DropMissingValuesStrategy.mk 0 none).thresh = none ∧
    (∀ c ∈ scenarioDf, c.cells.length = nRows scenarioDf) ∧
    (∃ out, (DropMissingValuesStrategy.mk 0 none).handle scenarioDf = Except.ok out ∧
      out.map Column.name = scenarioDf.map Column.name ∧
      out.map Column.numeric = scenarioDf.map Column.numeric ∧
      rowsOf out = (rowsOf scenarioDf).filter (fun r => r.all Option.isSome)) := by
  refine ⟨rfl, rfl, by decide, ?_⟩
  exact drop_rows_complete_spec (DropMissingValuesStrategy.mk 0 none) rfl rfl scenarioDf
    (by decide)

theorem drop_cols_thresh_spec_witness :
    (DropMissingValuesStrategy.mk 1 (some 2)).axis = 1 ∧
    (DropMissingValuesStrategy.mk 1 (some 2)).thresh = some 2 ∧
    (DropMissingValuesStrategy.mk 1 (some 2)).handle scenarioDf =
      Except.ok (scenarioDf.filter
        (fun c => decide (2 ≤ (c.cells.filter Option.isSome).length))) :=
  ⟨rfl, rfl, drop_cols_thresh_spec (DropMissingValuesStrategy.mk 1 (some 2)) 2 rfl rfl
    scenarioDf⟩

theorem step_unsupported_strategy_witness :
    ("bogus" ∉ (["drop", "mean", "median", "mode", "constant"] : List String) ∧
      handle_missing_values_step scenarioDf "bogus" =
        Except.error ("Unsupported missing value handling strategy: " ++ "bogus")) ∧
    ("drop" ∈ (["drop", "mean", "median", "mode", "constant"] : List String) ∧
      handle_missing_values_step scenarioDf "drop" ≠
        Except.error ("Unsupported missing value handling strategy: " ++ "drop")) :=
  ⟨⟨by decide, (step_unsupported_strategy "bogus" scenarioDf).1 (by decide)⟩,
   ⟨by decide, (step_unsupported_strategy "drop" scenarioDf).2 (by decide)⟩⟩

theorem fill_constant_idempotent_witness :
    (FillMissingValuesStrategy.mk "constant" (some (Value.num 0))).method = "constant" ∧
    (FillMissingValuesStrategy.mk "constant" (some (Value.num 0))).fill_value =
      some (Value.num 0) ∧
    ((FillMissingValuesStrategy.mk "constant" (some (Value.num 0))).handle
        scenarioDf).bind
      (FillMissingValuesStrategy.mk "constant" (some (Value.num 0))).handle =
      (FillMissingValuesStrategy.mk "constant" (some (Value.num 0))).handle scenarioDf :=
  ⟨rfl, rfl,
    fill_constant_idempotent (FillMissingValuesStrategy.mk "constant" (some (Value.num 0)))
      (Value.num 0) rfl rfl scenarioDf⟩

theorem handle_preserves_input_witness :
    0 < ([scenarioDf] : Heap).length ∧
    (Heap.read ((AnyStrategy.fill (FillMissingValuesStrategy.mk "mean" none)).handleProg
        [scenarioDf] 0).2 0 = Heap.read [scenarioDf] 0 ∧
     ∀ b, ((AnyStrategy.fill (FillMissingValuesStrategy.mk "mean" none)).handleProg
        [scenarioDf] 0).1 = Except.ok b → b ≠ 0) := by
  refine ⟨by decide, ?_⟩
  exact handle_preserves_input (AnyStrategy.fill (FillMissingValuesStrategy.mk "mean" none))
    [scenarioDf] 0 (by decide)
